import Mathlib

/-
  Verification development for the `cardano` scripts repository.

  Shallow embedding of the paginated data-aggregation and quantity-normalization
  core of the repository:
    * src/code/token_holders/token_holders.py   (get_token_decimals, get_token_holders)
    * src/stake_addresses_v2.py                 (fetch_addresses_for_stake, fetch_ada_amount, main)
    * src/code/transaction/single_transaction.py (fetch_transaction_details, save_transaction_to_excel)

  HTTP responses are modelled as a status code plus an already-decoded JSON body;
  the scripts' network environment becomes an explicit function argument.
  Python exceptions are modelled with `Except PyErr`.  Machine/float conversion is
  excluded from the embedding (noted where relevant); `decimal.Decimal` arithmetic
  is modelled exactly, including the script's `getcontext().prec = 28` context.
-/

/-- A Python exception kind, as raised by the embedded script fragments. -/
inductive PyErr where
  | keyError
  | valueError
  | typeError
  | attributeError
  | indexError
  | nameError
  deriving DecidableEq, Repr

/-- An HTTP response: `status_code` plus decoded JSON body (`response.json()`). -/
structure Response (α : Type) where
  status : Nat
  body : α
  deriving DecidableEq, Repr

/-- A JSON value, as produced by `response.json()`. JSON numbers are modelled as
integers (the endpoints used here return integral numerics or decimal strings). -/
inductive JVal where
  | null
  | num (n : Int)
  | str (s : String)
  | boolean (b : Bool)
  | obj (fields : List (String × JVal))
  | arr (elems : List JVal)

/-- Python `x is None` on a JSON value. -/
def JVal.isNull : JVal → Bool
  | .null => true
  | _ => false

/-- First-match field lookup in a decoded JSON object (Python `dict` access order). -/
def lookupField : List (String × JVal) → String → Option JVal
  | [], _ => none
  | (k, v) :: rest, key => if k = key then some v else lookupField rest key

/-- Python `d.get(key, default)` on a JSON value: returns the default when the key
is absent, and raises `AttributeError` when the receiver is not a dict. -/
def pyDictGet (v : JVal) (key : String) (dflt : JVal) : Except PyErr JVal :=
  match v with
  | .obj fields => .ok ((lookupField fields key).getD dflt)
  | _ => .error .attributeError

/-- Decimal-digit parser over a character list (accumulator style): `none`
until a first digit is seen, `none` again on any non-digit. -/
def parseDigits : List Char → Option Nat → Option Nat
  | [], acc => acc
  | c :: cs, acc =>
    if c.isDigit then parseDigits cs (some ((acc.getD 0) * 10 + (c.toNat - 48)))
    else none

/-- Python `int(s)` on a string: an optional sign followed by at least one
decimal digit; anything else raises `ValueError`. -/
def pyIntOfString (s : String) : Option Int :=
  match s.toList with
  | '-' :: cs => (parseDigits cs none).map fun n => -(n : Int)
  | cs => (parseDigits cs none).map fun n => (n : Int)

/-- Python `int(x)` on a JSON value: integers pass through, booleans coerce to
0/1, numeric strings parse, anything else raises. -/
def pyInt : JVal → Except PyErr Int
  | .num n => .ok n
  | .boolean b => .ok (if b then 1 else 0)
  | .str s => match pyIntOfString s with
      | some n => .ok n
      | none => .error .valueError
  | _ => .error .typeError

/-- Python truthiness of a JSON value. -/
def JVal.truthy : JVal → Bool
  | .null => false
  | .num n => n ≠ 0
  | .str s => s ≠ ""
  | .boolean b => b
  | .obj fields => !fields.isEmpty
  | .arr elems => !elems.isEmpty

/-- Python `str(x)` of a JSON value, to the extent the scripts render one
(token names are strings in practice; composites get a placeholder spelling). -/
def pyStr : JVal → String
  | .null => "None"
  | .num n => toString n
  | .str s => s
  | .boolean b => if b then "True" else "False"
  | .obj _ => "<dict>"
  | .arr _ => "<list>"

/-- Embeds `get_token_decimals` (token_holders.py lines 47-73; the identical copy
lives in single_transaction.py lines 81-106).  The response body is the decoded
top-level JSON object of `/assets/{unit}`.

```
if response.status_code == 200:
    metadata = response.json()
    inner_metadata = metadata.get('metadata', {})
    if inner_metadata is not None:
        decimals = inner_metadata.get('decimals', 0)
        return int(decimals) if decimals is not None else 0
    else:
        return 0
else:
    return 0
``` -/
def get_token_decimals (resp : Response (List (String × JVal))) : Except PyErr Int :=
  if resp.status = 200 then
    let inner_metadata := (lookupField resp.body "metadata").getD (.obj [])
    if !inner_metadata.isNull then do
      let decimals ← pyDictGet inner_metadata "decimals" (.num 0)
      if !decimals.isNull then pyInt decimals else pure 0
    else
      pure 0
  else
    pure 0

/-! ## Decimal arithmetic model (token_holders.py lines 40-41, 116-127)

The script runs `getcontext().prec = 28` and computes
`Decimal(str(x)) / (Decimal(10) ** Decimal(decimals))`.  `Decimal` division
returns the exact quotient when it fits in 28 significant digits (trailing
zeros included via the ideal-exponent rule) and otherwise rounds the quotient
to 28 significant digits with the context default `ROUND_HALF_EVEN`.  Since
dividing by a power of ten only shifts the digit string, this equals rounding
the integer numerator to 28 significant digits and then dividing exactly.
The later `astype(float)` (line 125) is modelled as the identity on exact
values — IEEE-754 representation error is outside this embedding — and the
pandas `.round(decimals)` (line 127, numpy half-even rounding at `decimals`
fractional digits) is modelled exactly on rationals. -/

/-- Round a natural number to 28 significant decimal digits, half-to-even:
the coefficient rounding `decimal.Decimal` division performs at `prec = 28`. -/
def decRound28 (n : Nat) : Nat :=
  let digits := Nat.log 10 n + 1
  if digits ≤ 28 then n
  else
    let k := digits - 28
    let q := n / 10 ^ k
    let r := n % 10 ^ k
    if 2 * r < 10 ^ k then q * 10 ^ k
    else if 10 ^ k < 2 * r then (q + 1) * 10 ^ k
    else if q % 2 = 0 then q * 10 ^ k else (q + 1) * 10 ^ k

/-- `Decimal(str(raw)) / (Decimal(10) ** Decimal(d))` at context precision 28
(token_holders.py line 118). -/
def decimalAdjusted (raw : Nat) (d : Nat) : ℚ :=
  (decRound28 raw : ℚ) / 10 ^ d

/-- Round-half-to-even to an integer (IEEE/numpy `rint` on an exact value). -/
def rhe (q : ℚ) : ℤ :=
  if q - ⌊q⌋ = 1 / 2 then (if ⌊q⌋ % 2 = 0 then ⌊q⌋ else ⌊q⌋ + 1) else round q

/-- numpy `.round(d)`: scale by `10^d`, round half-to-even, unscale
(token_holders.py line 127), on the exact rational value. -/
def npRound (d : Nat) (q : ℚ) : ℚ :=
  (rhe (q * 10 ^ d) : ℚ) / 10 ^ d

/-- The complete adjusted-quantity pipeline of `get_token_holders` for one raw
quantity: exact `Decimal` division at precision 28, then (float conversion,
modelled exact, then) numpy rounding to `d` fractional digits. -/
def adjustQuantity (raw : Nat) (d : Nat) : ℚ :=
  npRound d (decimalAdjusted raw d)

/-- Modelled from the spec's words (for comparison only): "round-half-up ...
to `decimals` fractional digits" applied to the exact quotient; `round` in
Mathlib is round-half-up. -/
def specRoundHalfUp (d : Nat) (q : ℚ) : ℚ :=
  (round (q * 10 ^ d) : ℚ) / 10 ^ d

/-! ## pandas descending sort model (token_holders.py line 121)

`df.sort_values(by=..., ascending=False)` goes through pandas `nargsort`,
which computes an ascending `argsort` with the default kind `'quicksort'`
and then reverses the resulting indexer.  numpy's introsort runs its stable
insertion sort on ranges below 17 elements, so on small frames the ascending
argsort is the stable ascending sort; the descending result is its reversal.
(For larger frames the tie order among equal keys is implementation-defined;
the theorems below about ties are instantiated on small inputs.) -/

/-- One holder row after quantity adjustment: (address, adjusted quantity). -/
abbrev HolderRow := String × ℚ

/-- Stable ascending insertion by adjusted quantity: an element is placed
before the first existing element with a key ≥ its own. -/
def insertAsc (x : HolderRow) : List HolderRow → List HolderRow
  | [] => [x]
  | y :: ys => if x.2 ≤ y.2 then x :: y :: ys else y :: insertAsc x ys

/-- Stable ascending sort by adjusted quantity (numpy's small-range stable
ascending argsort, applied to the rows). -/
def sortAsc : List HolderRow → List HolderRow
  | [] => []
  | x :: xs => insertAsc x (sortAsc xs)

/-- `df.sort_values(by='Adjusted Quantity', ascending=False)`: pandas reverses
the ascending argsort. -/
def pandasSortDesc (l : List HolderRow) : List HolderRow :=
  (sortAsc l).reverse

/-! ## Pagination loop of `get_token_holders` (token_holders.py lines 77-133) -/

/-- One raw holder element of a `/assets/{unit}/addresses` page. -/
structure Holder where
  address : String
  quantity : Nat
  deriving DecidableEq, Repr

/-- An observable event of a pagination loop: a page request or a
`time.sleep(delay)` call. -/
inductive Ev where
  | req (page : Nat)
  | sleep (d : Nat)
  deriving DecidableEq, Repr

/-- The page numbers requested in a trace, in order. -/
def reqsOf (tr : List Ev) : List Nat :=
  tr.filterMap fun e => match e with | .req p => some p | .sleep _ => none

/-- The `while True` pagination loop of `get_token_holders` (lines 85-108),
instrumented with a request/sleep trace.  `fetch page` is the response of
`GET /assets/{unit}/addresses?page={page}`.  The loop:
status 200 and empty body → break; status 200 and data → accumulate,
increment page, `time.sleep(delay)`; other status → break.
`fuel` bounds the number of iterations (every theorem supplies enough). -/
def getTokenHoldersLoop (fetch : Nat → Response (List Holder)) (delay : Nat) :
    Nat → Nat → List Holder × List Ev
  | 0, _ => ([], [])
  | fuel + 1, page =>
    let r := fetch page
    if r.status = 200 then
      if r.body = [] then ([], [.req page])
      else
        let rest := getTokenHoldersLoop fetch delay fuel (page + 1)
        (r.body ++ rest.1, .req page :: .sleep delay :: rest.2)
    else ([], [.req page])

/-- The pre-sort holder rows in fetch-arrival order, with the `Decimal`
quantity adjustment applied (token_holders.py lines 111-118). -/
def adjustedRows (all_holders : List Holder) (decimals : Nat) : List HolderRow :=
  all_holders.map fun h => (h.address, decimalAdjusted h.quantity decimals)

/-- `get_token_holders(token_unit, decimals, delay=1)` (lines 77-133): run the
pagination loop, build the DataFrame, adjust quantities, sort descending,
round.  `pd.DataFrame([])` of an empty accumulation has no columns, so the
column access `df['Quantity']` on line 118 raises `KeyError`. -/
def get_token_holders (fetch : Nat → Response (List Holder)) (decimals : Nat)
    (fuel : Nat) (delay : Nat := 1) : Except PyErr (List HolderRow) :=
  let all_holders := (getTokenHoldersLoop fetch delay fuel 1).1
  if all_holders = [] then .error .keyError
  else
    .ok ((pandasSortDesc (adjustedRows all_holders decimals)).map
      fun r => (r.1, npRound decimals r.2))

/-- `true` iff every two successive page requests in the trace are separated
by a `sleep` of exactly `d` (the claim's "fixed minimum delay" shape). -/
def sepByDelay (d : Nat) : List Ev → Bool
  | [] => true
  | .sleep _ :: rest => sepByDelay d rest
  | [.req _] => true
  | .req _ :: .req _ :: _ => false
  | .req _ :: .sleep d' :: rest => d' = d && sepByDelay d rest

/-! ## stake_addresses_v2.py (fetch_ada_amount, fetch_addresses_for_stake, main) -/

/-- One element of a `/accounts/{stake}/addresses` page; only the `address`
field is read (line 81). -/
structure AddrInfo where
  address : String
  deriving DecidableEq, Repr

/-- `fetch_ada_amount(address)` (lines 94-108).  The body models the decoded
`amount` array of `/addresses/{address}` as its list of integer quantities
(`amount[0]['quantity']`, a numeric string parsed by `int`).  Status 200 with
an empty `amount` array would raise `IndexError`; any other status yields 0.
A successful quantity is divided by `1_000_000` (Lovelace → ADA). -/
def fetch_ada_amount (resp : Response (List Nat)) : Except PyErr ℚ :=
  if resp.status = 200 then
    match resp.body with
    | [] => .error .indexError
    | q :: _ => .ok ((q : ℚ) / 1000000)
  else .ok 0

/-- The `while True` pagination loop of `fetch_addresses_for_stake`
(lines 54-91), instrumented with a request trace.  Unlike
`getTokenHoldersLoop`, the source inserts no `time.sleep` anywhere: the trace
contains only page-request events.  Every address of a successful page is
immediately resolved through `fetch_ada_amount` (line 82). -/
def fetchAddressesLoop (fetchPage : Nat → Response (List AddrInfo))
    (bal : String → Response (List Nat)) :
    Nat → Nat → Except PyErr (List (String × ℚ) × List Ev)
  | 0, _ => .ok ([], [])
  | fuel + 1, page =>
    let r := fetchPage page
    if r.status = 200 then
      if r.body = [] then .ok ([], [.req page])
      else do
        let processed ← r.body.mapM fun a => do
          let ada ← fetch_ada_amount (bal a.address)
          pure (a.address, ada)
        let rest ← fetchAddressesLoop fetchPage bal fuel (page + 1)
        pure (processed ++ rest.1, .req page :: rest.2)
    else .ok ([], [.req page])

/-- `fetch_addresses_for_stake(stake_address)`: the loop started at page 1. -/
def fetch_addresses_for_stake (fetchPage : Nat → Response (List AddrInfo))
    (bal : String → Response (List Nat)) (fuel : Nat) :
    Except PyErr (List (String × ℚ) × List Ev) :=
  fetchAddressesLoop fetchPage bal fuel 1

/-- One output row of `main` (lines 120-125). -/
structure StakeRow where
  stake_pool_address : String
  addresses : String
  ada_amount : ℚ
  deriving DecidableEq, Repr

/-- The aggregation loop of `main` (lines 117-125): for each stake key in
input order, fetch its addresses and append one row per (address, amount)
pair.  `pages k` is the page endpoint of stake key `k`. -/
def stakeMain (stakes : List String)
    (pages : String → Nat → Response (List AddrInfo))
    (bal : String → Response (List Nat)) (fuel : Nat) :
    Except PyErr (List StakeRow) := do
  let rows ← stakes.mapM fun st => do
    let res ← fetch_addresses_for_stake (pages st) bal fuel
    pure (res.1.map fun p => StakeRow.mk st p.1 p.2)
  pure rows.flatten

/-! ## single_transaction.py (fetch_transaction_details, save_transaction_to_excel) -/

/-- Decoded `/txs/{tx_id}` body: the fields the script reads
(`tx_data['block']`, `tx_data['fees']`). -/
structure TxData where
  block : String
  fees : Nat
  deriving DecidableEq, Repr

/-- Decoded `/blocks/{hash}` body: the script reads `block_data['time']`
(a POSIX timestamp; the `strftime` presentation of it is kept abstract). -/
structure BlockData where
  time : Nat
  deriving DecidableEq, Repr

/-- One entry of a UTXO `amount` array: `{'unit': ..., 'quantity': ...}`
(the quantity is a numeric string parsed by `int`). -/
structure AmountEntry where
  unit : String
  quantity : Nat
  deriving DecidableEq, Repr

/-- One input or output of `/txs/{tx_id}/utxos`: the fields the script reads. -/
structure UtxoEntry where
  address : String
  amount : List AmountEntry
  deriving DecidableEq, Repr

/-- Decoded `/txs/{tx_id}/utxos` body. -/
structure UtxoData where
  inputs : List UtxoEntry
  outputs : List UtxoEntry
  deriving DecidableEq, Repr

/-- The network environment of one `fetch_transaction_details(tx_id)` call:
the responses of all endpoints it may query.  `addrOf a` is
`GET /addresses/{a}` with its decoded `stake_address` field (`none` when the
field is absent); `assetOf u` is `GET /assets/{u}` (decoded top-level JSON
object, shared by `fetch_token_metadata` and its inner `get_token_decimals`
call, which requests the same URL again). -/
structure TxEnv where
  tx : Response TxData
  block : Response BlockData
  utxo : Response UtxoData
  addrOf : String → Response (Option String)
  assetOf : String → Response (List (String × JVal))

/-- `fetch_stake_key(address)` (lines 53-60):
`address_data.get('stake_address', 'N/A')` on success, `'N/A'` otherwise. -/
def fetch_stake_key (resp : Response (Option String)) : String :=
  if resp.status = 200 then resp.body.getD "N/A" else "N/A"

/-- `fetch_token_metadata(asset_id)` (lines 63-78): on success, the token name
from `onchain_metadata` (Python truthiness guard, then `.get('name', 'N/A')`),
the fingerprint field defaulting to the asset id, and the decimals via a
second `get_token_decimals` request to the same URL; on failure
`('N/A', 0, asset_id)`. -/
def fetch_token_metadata (resp : Response (List (String × JVal))) (assetId : String) :
    Except PyErr (JVal × Int × JVal) :=
  if resp.status = 200 then do
    let metadata := resp.body
    let onchain := lookupField metadata "onchain_metadata"
    let token_name ←
      if (onchain.getD JVal.null).truthy then
        pyDictGet (onchain.getD (.obj [])) "name" (.str "N/A")
      else pure (JVal.str "N/A")
    let fingerprint := (lookupField metadata "fingerprint").getD (.str assetId)
    let decimals ← get_token_decimals resp
    pure (token_name, decimals, fingerprint)
  else
    pure (.str "N/A", 0, .str assetId)

/-- `f"{token_name} ({token_unit[-8:]})" if token_name != 'N/A' else token_name`
(line 143).  `token_unit[-8:]` is the last eight characters. -/
def formatTokenName (token_name : JVal) (token_unit : String) : JVal :=
  match token_name with
  | .str s =>
    if s = "N/A" then .str s
    else .str (s ++ " (" ++ (token_unit.takeRight 8) ++ ")")
  | v => .str (pyStr v ++ " (" ++ (token_unit.takeRight 8) ++ ")")

/-- One row of `inputs_details` / `outputs_details` (lines 119-123, 131-135). -/
structure TxLineDetail where
  address : String
  stake_key : String
  ada_amount : ℚ
  deriving DecidableEq, Repr

/-- One row of `tokens_moved` (lines 148-156). -/
structure TokenMoved where
  input_address : String
  input_stake_key : String
  output_address : String
  output_stake_key : String
  token : JVal
  token_name : JVal
  quantity : ℚ

/-- The `transaction_info` dictionary (lines 161-168); the formatted date
string is represented by the raw block timestamp it is computed from. -/
structure TransactionInfo where
  tx_id : String
  date : Nat
  inputs_details : List TxLineDetail
  outputs_details : List TxLineDetail
  tokens_moved : List TokenMoved
  transaction_fee : ℚ

/-- `int(entry_list[0]['quantity'])`: the first amount entry's quantity;
`IndexError` on an empty amount array. -/
def headQuantity : List AmountEntry → Except PyErr Nat
  | [] => .error .indexError
  | a :: _ => .ok a.quantity

/-- `fetch_transaction_details(tx_id)` (lines 15-170).  The three top-level
lookups short-circuit to `None` on a non-success status (lines 24-50); then
inputs are processed (lines 114-123), then outputs with their token entries
beyond the first (ADA) amount entry (lines 126-156).  The `sender_wallet` /
`sender_stake_key` names used inside the token loop are whatever the input
loop left behind: the *last* input (`NameError` if there was none). -/
def fetch_transaction_details (tx_id : String) (env : TxEnv) :
    Except PyErr (Option TransactionInfo) :=
  if env.tx.status ≠ 200 then .ok none
  else if env.block.status ≠ 200 then .ok none
  else if env.utxo.status ≠ 200 then .ok none
  else do
    let tx_data := env.tx.body
    let tx_date := env.block.body.time
    let utxo_data := env.utxo.body
    let inputs_details ← utxo_data.inputs.mapM fun i => do
      let q ← headQuantity i.amount
      pure (TxLineDetail.mk i.address (fetch_stake_key (env.addrOf i.address)) ((q : ℚ) / 1000000))
    let outPairs ← utxo_data.outputs.mapM fun o => do
      let q ← headQuantity o.amount
      let od := TxLineDetail.mk o.address (fetch_stake_key (env.addrOf o.address)) ((q : ℚ) / 1000000)
      let toks ← o.amount.tail.mapM fun a => do
        match utxo_data.inputs.getLast? with
        | none => .error PyErr.nameError
        | some sender => do
          let meta ← fetch_token_metadata (env.assetOf a.unit) a.unit
          pure (TokenMoved.mk sender.address
            (fetch_stake_key (env.addrOf sender.address))
            o.address (fetch_stake_key (env.addrOf o.address))
            meta.2.2 (formatTokenName meta.1 a.unit)
            ((a.quantity : ℚ) / (10 : ℚ) ^ meta.2.1))
      pure (od, toks)
    let outputs_details := outPairs.map Prod.fst
    let tokens_moved := (outPairs.map Prod.snd).flatten
    pure (some (TransactionInfo.mk tx_id tx_date inputs_details outputs_details
      tokens_moved ((tx_data.fees : ℚ) / 1000000)))

/-- `save_transaction_to_excel` (lines 172-191) writes a file iff
`transaction_info` is truthy; `None` short-circuits with no write. -/
def saveTransactionWrites : Option TransactionInfo → Bool
  | none => false
  | some _ => true

/-- The `__main__` pipeline (lines 193-199): fetch, then save only a truthy
result; an uncaught exception also writes nothing. -/
def transactionPipelineWrites (tx_id : String) (env : TxEnv) : Bool :=
  match fetch_transaction_details tx_id env with
  | .ok r => saveTransactionWrites r
  | .error _ => false

/-! ## Lemmas about the Decimal / rounding model -/

/-- Below 10^28 the precision-28 coefficient rounding is the identity. -/
theorem decRound28_of_lt (n : Nat) (h : n < 10 ^ 28) : decRound28 n = n := by
  have hd : Nat.log 10 n + 1 ≤ 28 := by
    rcases Nat.eq_zero_or_pos n with h0 | h0
    · subst h0; simp [Nat.log_zero_right]
    · exact Nat.succ_le_of_lt (Nat.log_lt_of_lt_pow (Nat.pos_iff_ne_zero.mp h0) h)
  unfold decRound28
  simp [hd]

/-- Powers of ten are exact at any precision (the quotient coefficient is 1). -/
theorem decRound28_pow10 (d : Nat) : decRound28 (10 ^ d) = 10 ^ d := by
  rcases lt_or_le d 28 with h | h
  · exact decRound28_of_lt _ (Nat.pow_lt_pow_right (by norm_num) h)
  · unfold decRound28
    rw [Nat.log_pow (by norm_num)]
    have h1 : ¬ (d + 1 ≤ 28) := by omega
    have hk : d + 1 - 28 ≤ d := by omega
    have hmod : 10 ^ d % 10 ^ (d + 1 - 28) = 0 :=
      Nat.mod_eq_zero_of_dvd (pow_dvd_pow 10 hk)
    have hpos : 0 < 10 ^ (d + 1 - 28) := Nat.pos_pow_of_pos _ (by norm_num)
    simp only [h1, if_false, hmod]
    simp only [Nat.mul_zero, hpos, if_pos]
    rw [Nat.pow_div hk (by norm_num), ← Nat.pow_add]
    congr 1
    omega

/-- Half-even rounding is the identity on integers. -/
theorem rhe_intCast (m : ℤ) : rhe (m : ℚ) = m := by
  unfold rhe
  rw [Int.floor_intCast]
  norm_num

/-- numpy rounding to `d` fractional digits is the identity on a rational that
already has at most `d` fractional digits. -/
theorem npRound_int_div_pow (m : ℤ) (d : Nat) :
    npRound d ((m : ℚ) / 10 ^ d) = (m : ℚ) / 10 ^ d := by
  unfold npRound
  rw [div_mul_cancel₀ _ (by positivity : (10 : ℚ) ^ d ≠ 0), rhe_intCast]

/-- The spec's round-half-up to `d` fractional digits is likewise the identity
on a rational that already has at most `d` fractional digits. -/
theorem specRoundHalfUp_int_div_pow (m : ℤ) (d : Nat) :
    specRoundHalfUp d ((m : ℚ) / 10 ^ d) = (m : ℚ) / 10 ^ d := by
  unfold specRoundHalfUp
  rw [div_mul_cancel₀ _ (by positivity : (10 : ℚ) ^ d ≠ 0), round_intCast]

/-- For raw quantities below 10^28 the whole adjusted-quantity pipeline is the
exact quotient `raw / 10^d`. -/
theorem adjustQuantity_eq_exact (raw d : Nat) (h : raw < 10 ^ 28) :
    adjustQuantity raw d = (raw : ℚ) / 10 ^ d := by
  unfold adjustQuantity decimalAdjusted
  rw [decRound28_of_lt raw h]
  have : ((raw : ℤ) : ℚ) = (raw : ℚ) := by push_cast; ring
  rw [← this, npRound_int_div_pow]

/-! ## Lemmas about the descending sort model -/

/-- Membership in an insertion. -/
theorem mem_insertAsc {a x : HolderRow} {l : List HolderRow} :
    a ∈ insertAsc x l ↔ a = x ∨ a ∈ l := by
  induction l with
  | nil => simp [insertAsc]
  | cons y ys ih =>
    unfold insertAsc
    by_cases hxy : x.2 ≤ y.2
    · simp [hxy]
    · simp [hxy, ih]
      tauto

/-- Inserting preserves ascending sortedness. -/
theorem sorted_insertAsc (x : HolderRow) (l : List HolderRow)
    (h : List.Sorted (fun a b : HolderRow => a.2 ≤ b.2) l) :
    List.Sorted (fun a b : HolderRow => a.2 ≤ b.2) (insertAsc x l) := by
  induction l with
  | nil => simp [insertAsc, List.Sorted]
  | cons y ys ih =>
    unfold insertAsc
    rcases List.sorted_cons.mp h with ⟨hy, hys⟩
    by_cases hxy : x.2 ≤ y.2
    · simp only [hxy, if_pos]
      refine List.sorted_cons.mpr ⟨?_, h⟩
      intro b hb
      rcases List.mem_cons.mp hb with hb | hb
      · subst hb; exact hxy
      · exact le_trans hxy (hy b hb)
    · simp only [hxy, if_neg, if_false]
      refine List.sorted_cons.mpr ⟨?_, ih hys⟩
      intro b hb
      rcases mem_insertAsc.mp hb with hb | hb
      · subst hb; exact le_of_not_le hxy
      · exact hy b hb

/-- The ascending sort is sorted. -/
theorem sorted_sortAsc (l : List HolderRow) :
    List.Sorted (fun a b : HolderRow => a.2 ≤ b.2) (sortAsc l) := by
  induction l with
  | nil => simp [sortAsc, List.Sorted]
  | cons x xs ih => exact sorted_insertAsc x (sortAsc xs) ih

/-- Insertion is stable: the sub-sequence of rows at any fixed key value `v`
gains `x` at its front when `x` has key `v` and is untouched otherwise. -/
theorem insertAsc_filter (x : HolderRow) (l : List HolderRow) (v : ℚ) :
    (insertAsc x l).filter (fun r => decide (r.2 = v)) =
      if x.2 = v then x :: l.filter (fun r => decide (r.2 = v))
      else l.filter (fun r => decide (r.2 = v)) := by
  induction l with
  | nil =>
    by_cases hx : x.2 = v <;> simp [insertAsc, List.filter, hx]
  | cons y ys ih =>
    unfold insertAsc
    by_cases hxy : x.2 ≤ y.2
    · rw [if_pos hxy]
      by_cases hx : x.2 = v <;> by_cases hy : y.2 = v <;>
        simp [List.filter, hx, hy]
    · rw [if_neg hxy]
      have hylt : y.2 < x.2 := lt_of_not_le hxy
      by_cases hx : x.2 = v
      · have hy : ¬ (y.2 = v) := by rw [← hx]; exact ne_of_lt hylt
        simp [List.filter, hy, ih, hx]
      · by_cases hy : y.2 = v <;> simp [List.filter, hy, ih, hx]

/-- The ascending sort is stable: it preserves the original relative order of
rows sharing one key value. -/
theorem sortAsc_filter (l : List HolderRow) (v : ℚ) :
    (sortAsc l).filter (fun r => decide (r.2 = v)) =
      l.filter (fun r => decide (r.2 = v)) := by
  induction l with
  | nil => rfl
  | cons x xs ih =>
    unfold sortAsc
    rw [insertAsc_filter]
    by_cases hx : x.2 = v <;> simp [List.filter, hx, ih]

/-- The pandas descending sort is sorted descending by adjusted quantity. -/
theorem sorted_pandasSortDesc (l : List HolderRow) :
    List.Sorted (fun a b : HolderRow => b.2 ≤ a.2) (pandasSortDesc l) := by
  unfold pandasSortDesc
  rw [List.Sorted, List.pairwise_reverse]
  exact sorted_sortAsc l

/-- The pandas descending sort reverses the original relative order of rows
sharing one adjusted-quantity value. -/
theorem pandasSortDesc_filter (l : List HolderRow) (v : ℚ) :
    (pandasSortDesc l).filter (fun r => decide (r.2 = v)) =
      (l.filter (fun r => decide (r.2 = v))).reverse := by
  unfold pandasSortDesc
  rw [List.filter_reverse, sortAsc_filter]

/-! ## Characterization of the pagination loops -/

/-- Bind on a successful `Except` computation reduces. -/
theorem except_bind_ok {α β : Type} (a : α) (f : α → Except PyErr β) :
    (Except.ok a >>= f) = f a := rfl

/-- `mapM` over `Except` succeeds pointwise. -/
theorem mapM_ok_of_forall {α β : Type} (f : α → Except PyErr β) (g : α → β) :
    ∀ (l : List α), (∀ a ∈ l, f a = .ok (g a)) → l.mapM f = .ok (l.map g)
  | [], _ => rfl
  | x :: xs, h => by
    rw [List.mapM_cons, h x (List.mem_cons_self x xs),
      mapM_ok_of_forall f g xs (fun a ha => h a (List.mem_cons_of_mem x ha))]
    rfl

/-- Full description of `getTokenHoldersLoop` on an endpoint that serves the
non-empty pages `pages` at positions `start, start+1, ...` and then terminates
(non-success status or an empty page): the loop returns the concatenation of
all pages in order, and requests exactly the pages
`start, ..., start + pages.length` in increasing order. -/
theorem tokenLoop_spec (fetch : Nat → Response (List Holder)) (delay : Nat)
    (pages : List (List Holder)) :
    ∀ (start fuel : Nat), pages.length < fuel →
    (∀ i, i < pages.length → fetch (start + i) = ⟨200, pages.getD i []⟩) →
    (∀ p ∈ pages, p ≠ []) →
    ((fetch (start + pages.length)).status ≠ 200 ∨
      (fetch (start + pages.length)).body = []) →
    (getTokenHoldersLoop fetch delay fuel start).1 = pages.flatten ∧
    reqsOf (getTokenHoldersLoop fetch delay fuel start).2 =
      List.range' start (pages.length + 1) := by
  induction pages with
  | nil =>
    intro start fuel hfuel _ _ hterm
    match fuel, hfuel with
    | f + 1, _ =>
      simp only [List.length_nil, Nat.add_zero] at hterm
      unfold getTokenHoldersLoop
      rcases hterm with hterm | hterm
      · rw [if_neg hterm]
        simp [reqsOf, List.range']
      · by_cases hst : (fetch start).status = 200
        · rw [if_pos hst, if_pos hterm]
          simp [reqsOf, List.range']
        · rw [if_neg hst]
          simp [reqsOf, List.range']
  | cons p ps ih =>
    intro start fuel hfuel hpages hne hterm
    match fuel, hfuel with
    | f + 1, hfuel =>
      have h0 : fetch start = ⟨200, p⟩ := by
        have := hpages 0 (by simp)
        simpa using this
      have hpne : p ≠ [] := hne p (List.mem_cons_self p ps)
      unfold getTokenHoldersLoop
      rw [h0]
      simp only [ite_true, if_pos rfl]
      rw [if_neg hpne]
      have ihres := ih (start + 1) f (by simpa using Nat.lt_of_succ_lt_succ hfuel)
        (fun i hi => by
          have h := hpages (i + 1) (by simp only [List.length_cons]; omega)
          have harith : start + (i + 1) = start + 1 + i := by omega
          rw [harith] at h
          simpa using h)
        (fun q hq => hne q (List.mem_cons_of_mem p hq))
        (by
          have : start + 1 + ps.length = start + (p :: ps).length := by
            simp [List.length_cons]; omega
          rw [this]
          exact hterm)
      refine ⟨?_, ?_⟩
      · simp only [List.flatten_cons]
        rw [← ihres.1]
      · simp only [reqsOf, List.filterMap_cons]
        simp only [reqsOf] at ihres
        rw [ihres.2, List.length_cons]
        conv_rhs => rw [List.range'_succ]

/-- Full description of `fetchAddressesLoop` under the same page discipline,
with every balance lookup succeeding with value `v a` for address `a`: the
loop returns one `(address, ada)` pair per address, across all pages in
order, and requests pages `start, ..., start + pages.length`. -/
theorem stakeLoop_spec (fetchPage : Nat → Response (List AddrInfo))
    (bal : String → Response (List Nat)) (v : String → ℚ)
    (hbal : ∀ a, fetch_ada_amount (bal a) = .ok (v a))
    (pages : List (List AddrInfo)) :
    ∀ (start fuel : Nat), pages.length < fuel →
    (∀ i, i < pages.length → fetchPage (start + i) = ⟨200, pages.getD i []⟩) →
    (∀ p ∈ pages, p ≠ []) →
    ((fetchPage (start + pages.length)).status ≠ 200 ∨
      (fetchPage (start + pages.length)).body = []) →
    ∃ tr, fetchAddressesLoop fetchPage bal fuel start =
        .ok (pages.flatten.map (fun a => (a.address, v a.address)), tr) ∧
      reqsOf tr = List.range' start (pages.length + 1) := by
  induction pages with
  | nil =>
    intro start fuel hfuel _ _ hterm
    match fuel, hfuel with
    | f + 1, _ =>
      simp only [List.length_nil, Nat.add_zero] at hterm
      refine ⟨[.req start], ?_, by simp [reqsOf, List.range']⟩
      unfold fetchAddressesLoop
      rcases hterm with hterm | hterm
      · rw [if_neg hterm]
        simp
      · by_cases hst : (fetchPage start).status = 200
        · rw [if_pos hst, if_pos hterm]
          simp
        · rw [if_neg hst]
          simp
  | cons p ps ih =>
    intro start fuel hfuel hpages hne hterm
    match fuel, hfuel with
    | f + 1, hfuel =>
      have h0 : fetchPage start = ⟨200, p⟩ := by
        have := hpages 0 (by simp)
        simpa using this
      have hpne : p ≠ [] := hne p (List.mem_cons_self p ps)
      obtain ⟨tr, htr, hreq⟩ := ih (start + 1) f (by simpa using Nat.lt_of_succ_lt_succ hfuel)
        (fun i hi => by
          have h := hpages (i + 1) (by simp only [List.length_cons]; omega)
          have harith : start + (i + 1) = start + 1 + i := by omega
          rw [harith] at h
          simpa using h)
        (fun q hq => hne q (List.mem_cons_of_mem p hq))
        (by
          have : start + 1 + ps.length = start + (p :: ps).length := by
            simp only [List.length_cons]; omega
          rw [this]
          exact hterm)
      refine ⟨.req start :: tr, ?_, ?_⟩
      · unfold fetchAddressesLoop
        rw [h0]
        simp only [ite_true, if_pos rfl]
        rw [if_neg hpne]
        have hmap := mapM_ok_of_forall
          (fun a : AddrInfo => do
            let ada ← fetch_ada_amount (bal a.address)
            pure (a.address, ada))
          (fun a : AddrInfo => (a.address, v a.address)) p
          (fun a _ => by simp [hbal])
        rw [hmap, htr]
        simp only [List.flatten_cons, List.map_append]
        rfl
      · simp [reqsOf, List.filterMap_cons]
        simp only [reqsOf] at hreq
        rw [hreq]
        conv_rhs => rw [List.range'_succ]

/-- Delay discipline of the token-holders loop: every two successive page
requests in its trace are separated by a `sleep delay` event. -/
theorem tokenLoop_sepByDelay (fetch : Nat → Response (List Holder)) (delay : Nat) :
    ∀ fuel page, sepByDelay delay (getTokenHoldersLoop fetch delay fuel page).2 = true := by
  intro fuel
  induction fuel with
  | zero => intro page; rfl
  | succ f ih =>
    intro page
    unfold getTokenHoldersLoop
    by_cases hst : (fetch page).status = 200
    · rw [if_pos hst]
      by_cases hb : (fetch page).body = []
      · rw [if_pos hb]
        rfl
      · rw [if_neg hb]
        simp only [sepByDelay, ih (page + 1)]
        simp
    · rw [if_neg hst]
      rfl

/-! ## Mock endpoints used by the concrete witnesses and counterexamples -/

/-- Two one-holder pages. -/
def holderPage1 : List Holder := [⟨"addr_one", 500⟩]

/-- Second mock page. -/
def holderPage2 : List Holder := [⟨"addr_two", 700⟩]

/-- Mock holders endpoint: two non-empty pages, then empty success pages. -/
def mockHolderFetch2 : Nat → Response (List Holder) := fun k =>
  if k = 1 then ⟨200, holderPage1⟩ else if k = 2 then ⟨200, holderPage2⟩ else ⟨200, []⟩

/-- Mock holders endpoint: one non-empty page, then a 404. -/
def mockHolderFetchFail2 : Nat → Response (List Holder) := fun k =>
  if k = 1 then ⟨200, holderPage1⟩ else ⟨404, []⟩

/-- Mock address-listing endpoint: one one-address page, then empty. -/
def mockAddrFetch1 : Nat → Response (List AddrInfo) := fun k =>
  if k = 1 then ⟨200, [⟨"addr_a"⟩]⟩ else ⟨200, []⟩

/-- Mock address-listing endpoint: one one-address page, then a 429. -/
def mockAddrFetchFail2 : Nat → Response (List AddrInfo) := fun k =>
  if k = 1 then ⟨200, [⟨"addr_a"⟩]⟩ else ⟨429, []⟩

/-- Mock balance endpoint that always fails (so `fetch_ada_amount` yields 0). -/
def failingBal : String → Response (List Nat) := fun _ => ⟨500, []⟩

/-! ## Claims -/

/-- **C1.** For every mock paginated endpoint that returns N non-empty pages
(all with success status) followed by an empty page, the pagination loop
(`get_token_holders` / `fetch_addresses_for_stake`) issues requests for pages
1 through N+1 in increasing order, stops after the first empty page, and
returns exactly the concatenation of the N pages' elements, preserving page
order and intra-page order (the stake loop pairs each address, in order, with
its balance-lookup result). -/
theorem pagination_termination
    (fetch : Nat → Response (List Holder)) (delay : Nat)
    (fetchPage : Nat → Response (List AddrInfo)) (bal : String → Response (List Nat))
    (v : String → ℚ) (fuel : Nat)
    (pagesH : List (List Holder)) (pagesA : List (List AddrInfo))
    (hfuelH : pagesH.length < fuel) (hfuelA : pagesA.length < fuel)
    (hpagesH : ∀ i, i < pagesH.length → fetch (1 + i) = ⟨200, pagesH.getD i []⟩)
    (hneH : ∀ p ∈ pagesH, p ≠ [])
    (hendH : fetch (1 + pagesH.length) = ⟨200, []⟩)
    (hpagesA : ∀ i, i < pagesA.length → fetchPage (1 + i) = ⟨200, pagesA.getD i []⟩)
    (hneA : ∀ p ∈ pagesA, p ≠ [])
    (hendA : fetchPage (1 + pagesA.length) = ⟨200, []⟩)
    (hbal : ∀ a, fetch_ada_amount (bal a) = .ok (v a)) :
    (getTokenHoldersLoop fetch delay fuel 1).1 = pagesH.flatten ∧
    reqsOf (getTokenHoldersLoop fetch delay fuel 1).2 = List.range' 1 (pagesH.length + 1) ∧
    ∃ tr, fetch_addresses_for_stake fetchPage bal fuel =
        .ok (pagesA.flatten.map (fun a => (a.address, v a.address)), tr) ∧
      reqsOf tr = List.range' 1 (pagesA.length + 1) := by
  obtain ⟨h1, h2⟩ := tokenLoop_spec fetch delay pagesH 1 fuel hfuelH hpagesH hneH
    (Or.inr (by rw [hendH]))
  refine ⟨h1, h2, ?_⟩
  exact stakeLoop_spec fetchPage bal v hbal pagesA 1 fuel hfuelA hpagesA hneA
    (Or.inr (by rw [hendA]))

/-- Witness for C1: two holder pages then an empty page (requests 1,2,3), and
one address page then an empty page (requests 1,2), all balance lookups
failing (ada 0). -/
theorem pagination_termination_witness :
    (getTokenHoldersLoop mockHolderFetch2 1 3 1).1 = [holderPage1, holderPage2].flatten ∧
    reqsOf (getTokenHoldersLoop mockHolderFetch2 1 3 1).2 = List.range' 1 3 ∧
    ∃ tr, fetch_addresses_for_stake mockAddrFetch1 failingBal 3 =
        .ok (([[(⟨"addr_a"⟩ : AddrInfo)]].flatten).map (fun a => (a.address, (0 : ℚ))), tr) ∧
      reqsOf tr = List.range' 1 2 :=
  pagination_termination mockHolderFetch2 1 mockAddrFetch1 failingBal (fun _ => 0) 3
    [holderPage1, holderPage2] [[⟨"addr_a"⟩]]
    (by decide) (by decide)
    (by decide) (by decide) (by decide)
    (by decide) (by decide) (by decide)
    (fun _ => rfl)

/-- **C3.** For every paginated fetch in which some page k ≥ 1 returns a
non-success HTTP status, the pagination loop terminates at that page without
raising, and returns exactly the elements accumulated from pages 1 through
k-1 (both for the token-holders loop and for the stake-address loop). -/
theorem pagination_early_stop
    (fetch : Nat → Response (List Holder)) (delay : Nat)
    (fetchPage : Nat → Response (List AddrInfo)) (bal : String → Response (List Nat))
    (v : String → ℚ) (fuel : Nat)
    (pagesH : List (List Holder)) (pagesA : List (List AddrInfo))
    (hfuelH : pagesH.length < fuel) (hfuelA : pagesA.length < fuel)
    (hpagesH : ∀ i, i < pagesH.length → fetch (1 + i) = ⟨200, pagesH.getD i []⟩)
    (hneH : ∀ p ∈ pagesH, p ≠ [])
    (hfailH : (fetch (1 + pagesH.length)).status ≠ 200)
    (hpagesA : ∀ i, i < pagesA.length → fetchPage (1 + i) = ⟨200, pagesA.getD i []⟩)
    (hneA : ∀ p ∈ pagesA, p ≠ [])
    (hfailA : (fetchPage (1 + pagesA.length)).status ≠ 200)
    (hbal : ∀ a, fetch_ada_amount (bal a) = .ok (v a)) :
    (getTokenHoldersLoop fetch delay fuel 1).1 = pagesH.flatten ∧
    reqsOf (getTokenHoldersLoop fetch delay fuel 1).2 = List.range' 1 (pagesH.length + 1) ∧
    ∃ tr, fetch_addresses_for_stake fetchPage bal fuel =
        .ok (pagesA.flatten.map (fun a => (a.address, v a.address)), tr) ∧
      reqsOf tr = List.range' 1 (pagesA.length + 1) := by
  obtain ⟨h1, h2⟩ := tokenLoop_spec fetch delay pagesH 1 fuel hfuelH hpagesH hneH
    (Or.inl hfailH)
  refine ⟨h1, h2, ?_⟩
  exact stakeLoop_spec fetchPage bal v hbal pagesA 1 fuel hfuelA hpagesA hneA
    (Or.inl hfailA)

/-- Witness for C3: a failure on page 2 yields exactly page 1's elements, for
both loops. -/
theorem pagination_early_stop_witness :
    (getTokenHoldersLoop mockHolderFetchFail2 1 3 1).1 = [holderPage1].flatten ∧
    reqsOf (getTokenHoldersLoop mockHolderFetchFail2 1 3 1).2 = List.range' 1 2 ∧
    ∃ tr, fetch_addresses_for_stake mockAddrFetchFail2 failingBal 3 =
        .ok (([[(⟨"addr_a"⟩ : AddrInfo)]].flatten).map (fun a => (a.address, (0 : ℚ))), tr) ∧
      reqsOf tr = List.range' 1 2 :=
  pagination_early_stop mockHolderFetchFail2 1 mockAddrFetchFail2 failingBal (fun _ => 0) 3
    [holderPage1] [[⟨"addr_a"⟩]]
    (by decide) (by decide)
    (by decide) (by decide) (by decide)
    (by decide) (by decide) (by decide)
    (fun _ => rfl)

/-- **C9, as stated, is false** for the stake-address listing loop: the source
of `fetch_addresses_for_stake` contains no sleep call, so two successive page
requests appear in its trace with no delay event between them. -/
theorem rate_limit_counterexample :
    fetch_addresses_for_stake mockAddrFetch1 failingBal 3 =
      .ok ([("addr_a", (0 : ℚ))], [Ev.req 1, Ev.req 2]) ∧
    sepByDelay 1 [Ev.req 1, Ev.req 2] = false := by
  constructor
  · rfl
  · rfl

/-- **C9 (amended).** The token-holders pagination loop inserts the fixed
`time.sleep(delay)` (default `delay = 1`) between any two successive page
requests; the stake-address listing loop inserts none. -/
theorem rate_limit_amended (fetch : Nat → Response (List Holder)) (delay fuel page : Nat) :
    sepByDelay delay (getTokenHoldersLoop fetch delay fuel page).2 = true :=
  tokenLoop_sepByDelay fetch delay fuel page

/-- **C10.** If pagination yields zero holder elements (for example a
non-success status on page 1, or an asset with no holders), `get_token_holders`
does not return an empty holder table: the DataFrame built from an empty list
has no `'Quantity'` column, so the column access raises `KeyError`. -/
theorem empty_holders_keyerror (fetch : Nat → Response (List Holder))
    (decimals fuel delay : Nat)
    (h : (getTokenHoldersLoop fetch delay fuel 1).1 = []) :
    get_token_holders fetch decimals fuel delay = .error .keyError := by
  unfold get_token_holders
  simp [h]

/-- Witness for C10: a 404 on page 1 makes `get_token_holders` raise
`KeyError` instead of returning an empty table. -/
theorem empty_holders_keyerror_witness :
    (getTokenHoldersLoop (fun _ => (⟨404, []⟩ : Response (List Holder))) 1 2 1).1 = [] ∧
    get_token_holders (fun _ => (⟨404, []⟩ : Response (List Holder))) 0 2 1 =
      .error .keyError :=
  ⟨by decide, empty_holders_keyerror _ 0 2 1 (by decide)⟩

/-- numpy rounding to `d` fractional digits is the identity on integers. -/
theorem npRound_intCast (m : ℤ) (d : Nat) : npRound d ((m : ℚ)) = m := by
  unfold npRound
  have h : (m : ℚ) * 10 ^ d = ((m * 10 ^ d : ℤ) : ℚ) := by push_cast; ring
  rw [h, rhe_intCast]
  push_cast
  rw [mul_div_assoc, div_self (by positivity : ((10 : ℚ)) ^ d ≠ 0), mul_one]

/-- `10^28 + 5` has 29 significant digits, so the precision-28 `Decimal`
division rounds its quotient coefficient half-even down to `10^28`. -/
theorem decRound28_big : decRound28 (10 ^ 28 + 5) = 10 ^ 28 := by
  unfold decRound28
  rw [show Nat.log 10 (10 ^ 28 + 5) = 28 from
    Nat.log_eq_of_pow_le_of_lt_pow (by norm_num) (by norm_num)]
  norm_num

/-- **C2, as stated, is false**: the claim quantifies over all raw ≥ 0, but at
raw = 10^28 + 5 and d = 0 the `Decimal` context precision 28 set by the script
rounds the quotient to 10^28, whereas raw / 10^0 rounded (half-up) to 0
fractional digits is raw itself. -/
theorem quantity_normalization_counterexample :
    adjustQuantity (10 ^ 28 + 5) 0 = (10 : ℚ) ^ 28 ∧
    adjustQuantity (10 ^ 28 + 5) 0 ≠ ((10 : ℚ) ^ 28 + 5) ∧
    specRoundHalfUp 0 (((10 ^ 28 + 5 : Nat) : ℚ) / 10 ^ (0 : Nat)) = (10 : ℚ) ^ 28 + 5 := by
  have e1 : adjustQuantity (10 ^ 28 + 5) 0 = (10 : ℚ) ^ 28 := by
    unfold adjustQuantity decimalAdjusted
    rw [decRound28_big]
    have e : ((10 ^ 28 : ℕ) : ℚ) / 10 ^ (0 : ℕ) = ((10 ^ 28 : ℤ) : ℚ) / 10 ^ (0 : ℕ) := by
      push_cast; ring
    rw [e, npRound_int_div_pow]
    push_cast
    norm_num
  refine ⟨e1, ?_, ?_⟩
  · rw [e1]
    intro hcontra
    norm_num at hcontra
  · have e : ((10 ^ 28 + 5 : ℕ) : ℚ) / 10 ^ (0 : ℕ) =
        ((10 ^ 28 + 5 : ℤ) : ℚ) / 10 ^ (0 : ℕ) := by push_cast; ring
    rw [e, specRoundHalfUp_int_div_pow]
    push_cast
    norm_num

/-- **C2 (amended).** For decimals d ≥ 0 and raw below 10^28 (in particular
for all raw up to 2^63, the range the spec demands) the holder aggregator's
pipeline computes exactly raw / 10^d — the `Decimal` division is exact, and
the final rounding to d fractional digits is a no-op on the exact value (so
it also agrees with round-half-up, whose choice is unobservable here);
normalize(0, d) = 0 and normalize(10^d, d) = 1 for every d.  For raw with
more than 28 significant digits the context precision rounds the quotient
half-even, and the result deviates from raw / 10^d.  (IEEE-754 error of the
intermediate `astype(float)` is outside this embedding.) -/
theorem quantity_normalization_amended (raw d : Nat) (h : raw < 10 ^ 28) :
    adjustQuantity raw d = (raw : ℚ) / 10 ^ d ∧
    adjustQuantity raw d = specRoundHalfUp d ((raw : ℚ) / 10 ^ d) ∧
    adjustQuantity 0 d = 0 ∧
    adjustQuantity (10 ^ d) d = 1 := by
  refine ⟨adjustQuantity_eq_exact raw d h, ?_, ?_, ?_⟩
  · rw [adjustQuantity_eq_exact raw d h]
    have e : ((raw : ℕ) : ℚ) / 10 ^ d = ((raw : ℤ) : ℚ) / 10 ^ d := by push_cast; ring
    rw [e, specRoundHalfUp_int_div_pow]
  · rw [adjustQuantity_eq_exact 0 d (by norm_num)]
    simp
  · unfold adjustQuantity decimalAdjusted
    rw [decRound28_pow10]
    have e : ((10 ^ d : ℕ) : ℚ) / 10 ^ d = ((10 ^ d : ℤ) : ℚ) / 10 ^ d := by
      push_cast; ring
    rw [e, npRound_int_div_pow]
    push_cast
    rw [div_self (by positivity)]

/-- Witness for C2 (amended): the spec's own end-to-end example,
raw = 123456789, d = 6 → 123.456789. -/
theorem quantity_normalization_witness :
    (123456789 < 10 ^ 28) ∧
    adjustQuantity 123456789 6 = (123456789 : ℚ) / 10 ^ 6 :=
  ⟨by norm_num, (quantity_normalization_amended 123456789 6 (by norm_num)).1⟩

/-- The adjusted value `decRound28 raw / 10^d` already has at most `d`
fractional digits, so the final numpy rounding leaves it unchanged. -/
theorem npRound_decimalAdjusted (raw d : Nat) :
    npRound d (decimalAdjusted raw d) = decimalAdjusted raw d := by
  unfold decimalAdjusted
  have e : ((decRound28 raw : ℕ) : ℚ) / 10 ^ d = ((decRound28 raw : ℤ) : ℚ) / 10 ^ d := by
    push_cast; ring
  rw [e, npRound_int_div_pow]

/-- Membership is invariant under insertion. -/
theorem mem_sortAsc {a : HolderRow} : ∀ {l : List HolderRow}, a ∈ sortAsc l ↔ a ∈ l
  | [] => Iff.rfl
  | x :: xs => by
    unfold sortAsc
    rw [mem_insertAsc, List.mem_cons, mem_sortAsc]

/-- Membership is invariant under the pandas descending sort. -/
theorem mem_pandasSortDesc {a : HolderRow} {l : List HolderRow} :
    a ∈ pandasSortDesc l ↔ a ∈ l := by
  unfold pandasSortDesc
  rw [List.mem_reverse]
  exact mem_sortAsc

/-- Mapping a pointwise-identity function is the identity. -/
theorem map_id_of_forall {α : Type} (f : α → α) :
    ∀ (l : List α), (∀ a ∈ l, f a = a) → l.map f = l
  | [], _ => rfl
  | x :: xs, h => by
    rw [List.map_cons, h x (List.mem_cons_self x xs),
      map_id_of_forall f xs (fun a ha => h a (List.mem_cons_of_mem x ha))]

/-- The post-sort rounding pass of `get_token_holders` leaves every row
unchanged (its values are `Decimal`-adjusted quotients). -/
theorem roundPass_id (all_holders : List Holder) (decimals : Nat) :
    (pandasSortDesc (adjustedRows all_holders decimals)).map
      (fun r => (r.1, npRound decimals r.2)) =
    pandasSortDesc (adjustedRows all_holders decimals) := by
  apply map_id_of_forall
  intro a ha
  have hmem : a ∈ adjustedRows all_holders decimals := mem_pandasSortDesc.mp ha
  unfold adjustedRows at hmem
  obtain ⟨h0, _, rfl⟩ := List.mem_map.mp hmem
  simp only [npRound_decimalAdjusted]

/-- Mock holders endpoint with one page carrying two equal-quantity holders. -/
def tieFetch : Nat → Response (List Holder) := fun k =>
  if k = 1 then ⟨200, [⟨"addr_one", 5⟩, ⟨"addr_two", 5⟩]⟩ else ⟨200, []⟩

/-- Evaluation of `get_token_holders` on the tied two-holder endpoint: the two
equal-quantity holders come back in *reverse* fetch order. -/
theorem get_token_holders_tieFetch :
    get_token_holders tieFetch 0 2 1 = .ok [("addr_two", (5 : ℚ)), ("addr_one", 5)] := by
  have h5 : decimalAdjusted 5 0 = 5 := by
    unfold decimalAdjusted
    rw [decRound28_of_lt 5 (by norm_num)]
    norm_num
  have hn5 : npRound 0 (5 : ℚ) = 5 := by
    have h := npRound_intCast 5 0
    simpa using h
  unfold get_token_holders
  simp [getTokenHoldersLoop, tieFetch, adjustedRows, h5, pandasSortDesc, sortAsc,
    insertAsc, hn5]

/-- **C4, as stated, is false**: on a page with two holders of equal quantity
(fetch order `addr_one`, `addr_two`) the pandas descending sort emits
`addr_two` first — the reverse of fetch order, not the original order. -/
theorem holder_sort_stability_counterexample :
    get_token_holders tieFetch 0 2 1 = .ok [("addr_two", (5 : ℚ)), ("addr_one", 5)] ∧
    get_token_holders tieFetch 0 2 1 ≠ .ok [("addr_one", (5 : ℚ)), ("addr_two", 5)] := by
  refine ⟨get_token_holders_tieFetch, ?_⟩
  rw [get_token_holders_tieFetch]
  intro hcontra
  exact absurd (Except.ok.inj hcontra) (by decide)

/-- **C4 (amended).** Every successful `get_token_holders` output is sorted by
adjusted quantity in descending order; holders with equal adjusted quantity
appear in the *reverse* of their fetch-arrival order (pandas' descending sort
reverses a stable ascending argsort; the embedding models numpy's stable
small-range insertion sort, so for frames above numpy's 16-element
insertion-sort cutoff the tie order is implementation-defined rather than
guaranteed). -/
theorem holder_sort_amended (fetch : Nat → Response (List Holder))
    (decimals fuel delay : Nat) (out : List HolderRow)
    (hout : get_token_holders fetch decimals fuel delay = .ok out) :
    List.Sorted (fun a b : HolderRow => b.2 ≤ a.2) out ∧
    ∀ v : ℚ, out.filter (fun r => decide (r.2 = v)) =
      ((adjustedRows (getTokenHoldersLoop fetch delay fuel 1).1 decimals).filter
        (fun r => decide (r.2 = v))).reverse := by
  unfold get_token_holders at hout
  by_cases hemp : (getTokenHoldersLoop fetch delay fuel 1).1 = []
  · rw [if_pos hemp] at hout
    exact absurd hout (by simp)
  · rw [if_neg hemp] at hout
    rw [roundPass_id] at hout
    have hout' : out = pandasSortDesc
        (adjustedRows (getTokenHoldersLoop fetch delay fuel 1).1 decimals) :=
      (Except.ok.inj hout).symm
    subst hout'
    exact ⟨sorted_pandasSortDesc _, fun v => pandasSortDesc_filter _ v⟩

/-- Witness for C4 (amended), on the tied two-holder endpoint, with the
tie-class filter instantiated at value 5. -/
theorem holder_sort_amended_witness :
    get_token_holders tieFetch 0 2 1 = .ok [("addr_two", (5 : ℚ)), ("addr_one", 5)] ∧
    List.Sorted (fun a b : HolderRow => b.2 ≤ a.2)
      [("addr_two", (5 : ℚ)), ("addr_one", 5)] ∧
    ([("addr_two", (5 : ℚ)), ("addr_one", 5)].filter
        (fun r => decide (r.2 = (5 : ℚ)))) =
      ((adjustedRows (getTokenHoldersLoop tieFetch 1 2 1).1 0).filter
        (fun r => decide (r.2 = (5 : ℚ)))).reverse :=
  ⟨get_token_holders_tieFetch,
   (holder_sort_amended tieFetch 0 2 1 _ get_token_holders_tieFetch).1,
   (holder_sort_amended tieFetch 0 2 1 _ get_token_holders_tieFetch).2 5⟩

/-- **C5, as stated, is false**: a negative upstream `decimals` value is not
coerced to 0 — `int(-3)` is returned as −3 — and a non-numeric `decimals`
string makes `int(...)` raise `ValueError` to the caller instead of
returning. -/
theorem token_decimals_counterexample :
    get_token_decimals ⟨200, [("metadata", .obj [("decimals", .num (-3))])]⟩ =
      .ok (-3) ∧
    get_token_decimals ⟨200, [("metadata", .obj [("decimals", .str "abc")])]⟩ =
      .error .valueError := by
  constructor
  · rfl
  · rfl

/-- **C5 (amended).** `get_token_decimals` returns 0 when the HTTP response is
unsuccessful, when the metadata container field is absent, when the container
is explicitly null, and when the nested decimals field is absent or null; a
*numeric* decimals value is returned as `int(value)` — including negative
values, which propagate unchanged (and a non-numeric string raises). -/
theorem token_decimals_amended
    (s : Nat) (hs : s ≠ 200) (anyBody : List (String × JVal))
    (b : List (String × JVal)) (hb : lookupField b "metadata" = none)
    (rest : List (String × JVal))
    (fs : List (String × JVal)) (hfs : lookupField fs "decimals" = none)
    (fs2 : List (String × JVal)) (n : Int) :
    get_token_decimals ⟨s, anyBody⟩ = .ok 0 ∧
    get_token_decimals ⟨200, b⟩ = .ok 0 ∧
    get_token_decimals ⟨200, ("metadata", .null) :: rest⟩ = .ok 0 ∧
    get_token_decimals ⟨200, ("metadata", .obj fs) :: rest⟩ = .ok 0 ∧
    get_token_decimals ⟨200, ("metadata", .obj (("decimals", .null) :: fs2)) :: rest⟩ =
      .ok 0 ∧
    get_token_decimals ⟨200, ("metadata", .obj (("decimals", .num n) :: fs2)) :: rest⟩ =
      .ok n := by
  refine ⟨?_, ?_, ?_, ?_, ?_, ?_⟩
  · unfold get_token_decimals
    rw [if_neg hs]
    rfl
  · simp [get_token_decimals, hb, pyDictGet, lookupField, pyInt, JVal.isNull]
    rfl
  · simp [get_token_decimals, lookupField, JVal.isNull]
    rfl
  · simp [get_token_decimals, lookupField, pyDictGet, hfs, pyInt, JVal.isNull]
    rfl
  · simp [get_token_decimals, lookupField, pyDictGet, pyInt, JVal.isNull]
    rfl
  · simp [get_token_decimals, lookupField, pyDictGet, pyInt, JVal.isNull]
    rfl

/-- Witness for C5 (amended): one concrete response per input shape. -/
theorem token_decimals_amended_witness :
    get_token_decimals ⟨404, []⟩ = .ok 0 ∧
    get_token_decimals ⟨200, [("name", .str "tok")]⟩ = .ok 0 ∧
    get_token_decimals ⟨200, [("metadata", .null)]⟩ = .ok 0 ∧
    get_token_decimals ⟨200, [("metadata", .obj [("ticker", .str "T")])]⟩ = .ok 0 ∧
    get_token_decimals ⟨200, [("metadata", .obj [("decimals", .null)])]⟩ = .ok 0 ∧
    get_token_decimals ⟨200, [("metadata", .obj [("decimals", .num 7)])]⟩ = .ok 7 :=
  token_decimals_amended 404 (by decide) [] [("name", .str "tok")] rfl []
    [("ticker", .str "T")] rfl [] 7

/-- Mock per-stake-key page endpoints: `stake_ok` has one two-address page,
any other key fails with a 500 on page 1. -/
def mockStakePages : String → Nat → Response (List AddrInfo) := fun s k =>
  if s = "stake_ok" then
    (if k = 1 then ⟨200, [⟨"addr_a"⟩, ⟨"addr_b"⟩]⟩ else ⟨200, []⟩)
  else ⟨500, []⟩

/-- Mock balance endpoint: `addr_a` holds 7 ADA, every other lookup fails. -/
def mockBal : String → Response (List Nat) := fun a =>
  if a = "addr_a" then ⟨200, [7000000]⟩ else ⟨404, []⟩

/-- The per-address values `fetch_ada_amount` yields under `mockBal`. -/
def mockBalVal : String → ℚ := fun a => if a = "addr_a" then 7 else 0

/-- `mockBal` resolves every address, failures included, to `mockBalVal`. -/
theorem mockBal_resolves (a : String) :
    fetch_ada_amount (mockBal a) = .ok (mockBalVal a) := by
  unfold mockBal mockBalVal fetch_ada_amount
  by_cases h : a = "addr_a"
  · rw [if_pos h, if_pos h]
    norm_num
  · rw [if_neg h, if_neg h]
    rfl

/-- **C6.** If one stake key's address-listing lookup fails entirely, `main`
still returns all address records of every other key (per-key independence);
an individual address whose balance lookup returns a non-success status is
recorded with ada_amount = 0; and every successful balance is converted at
the fixed scale of 10^6 minor units per ADA. -/
theorem stake_aggregation_independence
    (k1 k2 : String) (pages : String → Nat → Response (List AddrInfo))
    (bal : String → Response (List Nat)) (v : String → ℚ) (fuel : Nat)
    (pagesA : List (List AddrInfo))
    (hfail : (pages k1 1).status ≠ 200)
    (hfuel : pagesA.length < fuel)
    (hpagesA : ∀ i, i < pagesA.length → pages k2 (1 + i) = ⟨200, pagesA.getD i []⟩)
    (hneA : ∀ p ∈ pagesA, p ≠ [])
    (hendA : pages k2 (1 + pagesA.length) = ⟨200, []⟩)
    (hbal : ∀ a, fetch_ada_amount (bal a) = .ok (v a))
    (resp : Response (List Nat)) (hresp : resp.status ≠ 200)
    (q : Nat) (qrest : List Nat) :
    stakeMain [k1, k2] pages bal fuel =
      .ok ((pagesA.flatten.map (fun a => (a.address, v a.address))).map
        (fun p => StakeRow.mk k2 p.1 p.2)) ∧
    fetch_ada_amount resp = .ok 0 ∧
    fetch_ada_amount ⟨200, q :: qrest⟩ = .ok ((q : ℚ) / 1000000) := by
  obtain ⟨tr1, htr1, _⟩ := stakeLoop_spec (pages k1) bal v hbal [] 1 fuel
    (by simp only [List.length_nil]; omega)
    (by intro i hi; simp at hi) (by intro p hp; simp at hp)
    (Or.inl (by simpa using hfail))
  obtain ⟨tr2, htr2, _⟩ := stakeLoop_spec (pages k2) bal v hbal pagesA 1 fuel hfuel
    hpagesA hneA (Or.inr (by rw [hendA]))
  refine ⟨?_, ?_, ?_⟩
  · unfold stakeMain fetch_addresses_for_stake
    simp only [List.mapM_cons, List.mapM_nil]
    rw [htr1, htr2]
    simp [except_bind_ok]
  · unfold fetch_ada_amount
    rw [if_neg hresp]
  · rfl

/-- Witness for C6: `stake_fail`'s lookup 500s, `stake_ok` still contributes
both its addresses; `addr_b`'s failed balance is recorded as 0 and `addr_a`'s
7000000 Lovelace convert to 7 ADA; a stand-alone failed balance yields 0 and
3000000 Lovelace convert at the 10^6 scale. -/
theorem stake_aggregation_independence_witness :
    stakeMain ["stake_fail", "stake_ok"] mockStakePages mockBal 2 =
      .ok ((([[(⟨"addr_a"⟩ : AddrInfo), ⟨"addr_b"⟩]].flatten).map
          (fun a => (a.address, mockBalVal a.address))).map
        (fun p => StakeRow.mk "stake_ok" p.1 p.2)) ∧
    fetch_ada_amount ⟨404, []⟩ = .ok 0 ∧
    fetch_ada_amount ⟨200, [3000000]⟩ = .ok ((3000000 : ℚ) / 1000000) :=
  stake_aggregation_independence "stake_fail" "stake_ok" mockStakePages mockBal
    mockBalVal 2 [[⟨"addr_a"⟩, ⟨"addr_b"⟩]]
    (by decide) (by decide) (by decide) (by decide) (by decide)
    mockBal_resolves ⟨404, []⟩ (by decide) 3000000 []

/-- **C7.** If the transaction-detail lookup, the referenced block lookup, or
the UTXO-set lookup returns a non-success status, `fetch_transaction_details`
returns `None` without assembling any partial flow, and the export layer
performs no write. -/
theorem transaction_short_circuit (tx_id : String) (env : TxEnv)
    (h : env.tx.status ≠ 200 ∨ env.block.status ≠ 200 ∨ env.utxo.status ≠ 200) :
    fetch_transaction_details tx_id env = .ok none ∧
    saveTransactionWrites none = false ∧
    transactionPipelineWrites tx_id env = false := by
  have hfd : fetch_transaction_details tx_id env = .ok none := by
    unfold fetch_transaction_details
    rcases h with h | h | h
    · rw [if_pos h]
    · by_cases h1 : env.tx.status ≠ 200
      · rw [if_pos h1]
      · rw [if_neg h1, if_pos h]
    · by_cases h1 : env.tx.status ≠ 200
      · rw [if_pos h1]
      · rw [if_neg h1]
        by_cases h2 : env.block.status ≠ 200
        · rw [if_pos h2]
        · rw [if_neg h2, if_pos h]
  refine ⟨hfd, rfl, ?_⟩
  unfold transactionPipelineWrites
  rw [hfd]
  rfl

/-- A transaction environment whose transaction lookup 404s. -/
def deadTxEnv : TxEnv where
  tx := ⟨404, ⟨"blockhash", 0⟩⟩
  block := ⟨200, ⟨1725955200⟩⟩
  utxo := ⟨200, ⟨[], []⟩⟩
  addrOf := fun _ => ⟨200, none⟩
  assetOf := fun _ => ⟨200, []⟩

/-- Witness for C7: a 404 on the transaction record yields `None` and no
write. -/
theorem transaction_short_circuit_witness :
    fetch_transaction_details "txdead" deadTxEnv = .ok none ∧
    saveTransactionWrites none = false ∧
    transactionPipelineWrites "txdead" deadTxEnv = false :=
  transaction_short_circuit "txdead" deadTxEnv (Or.inl (by decide))

/-- **C8.** For a transaction with exactly 1 input and 2 outputs where exactly
one output carries 2 native-token entries after its first (ADA) amount entry,
`tokens_moved` has exactly 2 entries — each referencing the single input's
address and stake key and the carrying output's address and stake key, in the
order the entries appear — and the first (ADA) entry of each output's amount
list is never emitted as a token movement.  Both carrier positions (second or
first output) are covered. -/
theorem token_movements_assembly
    (tx_id : String) (env : TxEnv)
    (htx : env.tx.status = 200) (hblk : env.block.status = 200)
    (hutxo : env.utxo.status = 200)
    (i : UtxoEntry) (hins : env.utxo.body.inputs = [i])
    (iq : AmountEntry) (irest : List AmountEntry) (hi : i.amount = iq :: irest)
    (oA oB : UtxoEntry) (houts : env.utxo.body.outputs = [oA, oB])
    (eA eB t1 t2 : AmountEntry)
    (nm : String → JVal) (dc : String → Int) (fp : String → JVal)
    (hmeta : ∀ u, fetch_token_metadata (env.assetOf u) u = .ok (nm u, dc u, fp u)) :
    ((oA.amount = [eA] ∧ oB.amount = [eB, t1, t2]) →
      (fetch_transaction_details tx_id env).map (Option.map TransactionInfo.tokens_moved) =
        .ok (some
          [⟨i.address, fetch_stake_key (env.addrOf i.address),
            oB.address, fetch_stake_key (env.addrOf oB.address),
            fp t1.unit, formatTokenName (nm t1.unit) t1.unit,
            (t1.quantity : ℚ) / (10 : ℚ) ^ (dc t1.unit)⟩,
           ⟨i.address, fetch_stake_key (env.addrOf i.address),
            oB.address, fetch_stake_key (env.addrOf oB.address),
            fp t2.unit, formatTokenName (nm t2.unit) t2.unit,
            (t2.quantity : ℚ) / (10 : ℚ) ^ (dc t2.unit)⟩])) ∧
    ((oA.amount = [eA, t1, t2] ∧ oB.amount = [eB]) →
      (fetch_transaction_details tx_id env).map (Option.map TransactionInfo.tokens_moved) =
        .ok (some
          [⟨i.address, fetch_stake_key (env.addrOf i.address),
            oA.address, fetch_stake_key (env.addrOf oA.address),
            fp t1.unit, formatTokenName (nm t1.unit) t1.unit,
            (t1.quantity : ℚ) / (10 : ℚ) ^ (dc t1.unit)⟩,
           ⟨i.address, fetch_stake_key (env.addrOf i.address),
            oA.address, fetch_stake_key (env.addrOf oA.address),
            fp t2.unit, formatTokenName (nm t2.unit) t2.unit,
            (t2.quantity : ℚ) / (10 : ℚ) ^ (dc t2.unit)⟩])) := by
  have h1 : ¬ (env.tx.status ≠ 200) := by rw [htx]; simp
  have h2 : ¬ (env.block.status ≠ 200) := by rw [hblk]; simp
  have h3 : ¬ (env.utxo.status ≠ 200) := by rw [hutxo]; simp
  constructor
  · rintro ⟨hA, hB⟩
    unfold fetch_transaction_details
    rw [if_neg h1, if_neg h2, if_neg h3]
    simp only [hins, houts, hi, hA, hB, List.mapM_cons, List.mapM_nil, headQuantity,
      List.tail_cons, List.getLast?_singleton, hmeta, except_bind_ok]
    rfl
  · rintro ⟨hA, hB⟩
    unfold fetch_transaction_details
    rw [if_neg h1, if_neg h2, if_neg h3]
    simp only [hins, houts, hi, hA, hB, List.mapM_cons, List.mapM_nil, headQuantity,
      List.tail_cons, List.getLast?_singleton, hmeta, except_bind_ok]
    rfl

/-- The single input of both C8 witness environments. -/
def witnessInput : UtxoEntry := ⟨"in_addr", [⟨"lovelace", 5000000⟩]⟩

/-- A plain output: only the leading ADA amount entry. -/
def witnessPlainOut : UtxoEntry := ⟨"out_plain", [⟨"lovelace", 1000000⟩]⟩

/-- The carrying output: ADA entry followed by two native-token entries. -/
def witnessTokenOut : UtxoEntry :=
  ⟨"out_tokens", [⟨"lovelace", 2000000⟩, ⟨"unitone", 15⟩, ⟨"unittwo", 25⟩]⟩

/-- Shared asset response of the C8 witnesses: decimals 1, fingerprint `fp`. -/
def witnessAssetBody : List (String × JVal) :=
  [("metadata", .obj [("decimals", .num 1)]), ("fingerprint", .str "fp")]

/-- C8 witness environment with the token-carrying output in second position. -/
def tokenTxEnvB : TxEnv where
  tx := ⟨200, ⟨"blk", 170000⟩⟩
  block := ⟨200, ⟨1725955200⟩⟩
  utxo := ⟨200, ⟨[witnessInput], [witnessPlainOut, witnessTokenOut]⟩⟩
  addrOf := fun a => if a = "in_addr" then ⟨200, some "stake_in"⟩ else ⟨200, none⟩
  assetOf := fun _ => ⟨200, witnessAssetBody⟩

/-- C8 witness environment with the token-carrying output in first position. -/
def tokenTxEnvA : TxEnv where
  tx := ⟨200, ⟨"blk", 170000⟩⟩
  block := ⟨200, ⟨1725955200⟩⟩
  utxo := ⟨200, ⟨[witnessInput], [witnessTokenOut, witnessPlainOut]⟩⟩
  addrOf := fun a => if a = "in_addr" then ⟨200, some "stake_in"⟩ else ⟨200, none⟩
  assetOf := fun _ => ⟨200, witnessAssetBody⟩

/-- Witness for C8: in both carrier positions, exactly the two token entries
are emitted, bound to the single input (`in_addr` / `stake_in`) and to the
carrying output `out_tokens` (whose stake lookup yields `N/A`); no ADA entry
appears among the token movements. -/
theorem token_movements_assembly_witness :
    (fetch_transaction_details "tx1" tokenTxEnvB).map
        (Option.map TransactionInfo.tokens_moved) =
      .ok (some
        [⟨"in_addr", "stake_in", "out_tokens", "N/A", .str "fp", .str "N/A",
          (15 : ℚ) / (10 : ℚ) ^ (1 : ℤ)⟩,
         ⟨"in_addr", "stake_in", "out_tokens", "N/A", .str "fp", .str "N/A",
          (25 : ℚ) / (10 : ℚ) ^ (1 : ℤ)⟩]) ∧
    (fetch_transaction_details "tx1" tokenTxEnvA).map
        (Option.map TransactionInfo.tokens_moved) =
      .ok (some
        [⟨"in_addr", "stake_in", "out_tokens", "N/A", .str "fp", .str "N/A",
          (15 : ℚ) / (10 : ℚ) ^ (1 : ℤ)⟩,
         ⟨"in_addr", "stake_in", "out_tokens", "N/A", .str "fp", .str "N/A",
          (25 : ℚ) / (10 : ℚ) ^ (1 : ℤ)⟩]) :=
  ⟨(token_movements_assembly "tx1" tokenTxEnvB rfl rfl rfl
      witnessInput rfl ⟨"lovelace", 5000000⟩ [] rfl
      witnessPlainOut witnessTokenOut rfl
      ⟨"lovelace", 1000000⟩ ⟨"lovelace", 2000000⟩ ⟨"unitone", 15⟩ ⟨"unittwo", 25⟩
      (fun _ => .str "N/A") (fun _ => 1) (fun _ => .str "fp")
      (fun _ => rfl)).1 ⟨rfl, rfl⟩,
   (token_movements_assembly "tx1" tokenTxEnvA rfl rfl rfl
      witnessInput rfl ⟨"lovelace", 5000000⟩ [] rfl
      witnessTokenOut witnessPlainOut rfl
      ⟨"lovelace", 2000000⟩ ⟨"lovelace", 1000000⟩ ⟨"unitone", 15⟩ ⟨"unittwo", 25⟩
      (fun _ => .str "N/A") (fun _ => 1) (fun _ => .str "fp")
      (fun _ => rfl)).2 ⟨rfl, rfl⟩⟩

